import Mathlib

/-!
Verification development for the mcp-context-saver repository.

The development shallowly embeds the two engines of the repository —
`src/analyzer.ts` (the Discovery Engine) and `src/wrapper.ts` (the
Coordination Engine) together with the shared Zod schemas of
`src/types.ts` — as executable Lean definitions.

Modelling conventions:
* JSON documents are modelled by the inductive type `Json`; JSON numbers
  are modelled as integers (every number the engines manipulate is an
  array length / count).  Objects produced by `JSON.parse` are assumed to
  have no duplicate keys, so field lookup takes the first match.
* External effects (the wrapped peer's `listTools` / `listResources` /
  `listPrompts` / `callTool` requests, the planner round trip
  `generateText`, and `JSON.parse` of planner text) are oracle
  parameters; each model function additionally returns the list of
  external `Event`s it performed, in order, so that theorems can speak
  about which calls were made.
* JavaScript `await` of a rejected promise is modelled by `Except`
  propagation; `try`/`catch` by matching on the `Except`.
* `String.prototype.toLowerCase` is modelled on ASCII (the letters the
  regex-based slug logic manipulates); `\s+` is modelled by the
  JavaScript whitespace characters space, tab, newline, carriage return,
  vertical tab and form feed.
-/

/-- A JSON value, as produced by `JSON.parse`. -/
inductive Json where
  | null
  | bool (b : Bool)
  | num (n : Int)
  | str (s : String)
  | arr (elems : List Json)
  | obj (fields : List (String × Json))

/-- First-match field lookup in a parsed JSON object. -/
def lookupField : List (String × Json) → String → Option Json
  | [], _ => none
  | (k, v) :: rest, key => if k = key then some v else lookupField rest key

/-- JavaScript property access `v.key`: a `TypeError` on `null`,
`undefined` (`none`) on primitives and missing keys. -/
def jsField : Json → String → Except String (Option Json)
  | .null, key => .error ("TypeError: Cannot read properties of null (reading " ++ key ++ ")")
  | .obj fs, key => .ok (lookupField fs key)
  | _, _ => .ok none

/-- JavaScript truthiness of a JSON value. -/
def jsTruthy : Json → Bool
  | .null => false
  | .bool b => b
  | .num n => n != 0
  | .str s => s != ""
  | .arr _ => true
  | .obj _ => true

/-- An object property that `JSON.stringify` drops when its value is
`undefined` (`none`). -/
def optField (key : String) : Option Json → List (String × Json)
  | none => []
  | some v => [(key, v)]

mutual

/-- JavaScript `String(v)` conversion of a JSON value (as used by
`Array.prototype.join`). -/
def jsStringOfJson : Json → String
  | .null => "null"
  | .bool b => cond b "true" "false"
  | .num n => toString n
  | .str s => s
  | .arr xs => jsJoinComma xs
  | .obj _ => "[object Object]"

/-- `Array.prototype.join(",")`: `null`/`undefined` elements render as
the empty string. -/
def jsJoinComma : List Json → String
  | [] => ""
  | [Json.null] => ""
  | [x] => jsStringOfJson x
  | Json.null :: x :: xs => "," ++ jsJoinComma (x :: xs)
  | x :: y :: xs => jsStringOfJson x ++ "," ++ jsJoinComma (y :: xs)

end

/-- One escaped character of a JSON string literal. -/
def escapeJsonChar (c : Char) : String :=
  if c = '"' then "\\\"" else if c = '\\' then "\\\\" else if c = '\n' then "\\n" else String.mk [c]

/-- Body of a JSON string literal. -/
def escapeJsonString (s : String) : String :=
  String.join (s.data.map escapeJsonChar)

mutual

/-- `JSON.stringify` of a JSON value.  The model produces the compact
rendering; the pretty-printing whitespace of `JSON.stringify(v, null, 2)`
is not reproduced (the rendered text is only ever consumed by the
planner oracle, so no theorem depends on it). -/
def jsonStringify : Json → String
  | .null => "null"
  | .bool b => cond b "true" "false"
  | .num n => toString n
  | .str s => "\"" ++ escapeJsonString s ++ "\""
  | .arr xs => "[" ++ jsonStringifyList xs ++ "]"
  | .obj fs => "\x7b" ++ jsonStringifyFields fs ++ "\x7d"

/-- Comma-separated renderings of array elements. -/
def jsonStringifyList : List Json → String
  | [] => ""
  | [x] => jsonStringify x
  | x :: y :: xs => jsonStringify x ++ "," ++ jsonStringifyList (y :: xs)

/-- Comma-separated renderings of object properties. -/
def jsonStringifyFields : List (String × Json) → String
  | [] => ""
  | [(k, v)] => "\"" ++ escapeJsonString k ++ "\":" ++ jsonStringify v
  | (k, v) :: f :: fs =>
    "\"" ++ escapeJsonString k ++ "\":" ++ jsonStringify v ++ "," ++ jsonStringifyFields (f :: fs)

end

/-! ## `src/types.ts` — shared data model and Zod schemas -/

/-- `ServerCapabilities` (`src/types.ts`): the Capability Manifest. -/
structure ServerCapabilities where
  tools : List Json
  resources : List Json
  prompts : List Json

/-- The `metadata` record of a wrapper configuration (`src/types.ts`). -/
structure ConfigMetadata where
  analyzedAt : String
  toolCount : Int
  resourceCount : Int
  promptCount : Int

/-- `WrapperConfig` (`src/types.ts`): the Expert Descriptor as loaded by
the Coordination Engine. -/
structure WrapperConfig where
  name : String
  description : String
  serverPath : String
  args : List String
  systemPrompt : String
  capabilities : ServerCapabilities
  metadata : ConfigMetadata

/-- `z.string()` applied to a possibly missing property. -/
def parseZodString : Option Json → Except String String
  | some (.str s) => .ok s
  | _ => .error "Expected string"

/-- `z.array(z.string())` element check. -/
def parseZodStringElems : List Json → Except String (List String)
  | [] => .ok []
  | .str s :: rest => (parseZodStringElems rest).map (fun l => s :: l)
  | _ :: _ => .error "Expected string"

/-- `z.array(z.string())` applied to a possibly missing property. -/
def parseZodStringArray : Option Json → Except String (List String)
  | some (.arr xs) => parseZodStringElems xs
  | _ => .error "Expected array"

/-- `z.array(z.any())` applied to a possibly missing property. -/
def parseZodAnyArray : Option Json → Except String (List Json)
  | some (.arr xs) => .ok xs
  | _ => .error "Expected array"

/-- `z.number()` applied to a possibly missing property. -/
def parseZodNumber : Option Json → Except String Int
  | some (.num n) => .ok n
  | _ => .error "Expected number"

/-- The `capabilities` sub-object of `WrapperConfigSchema`. -/
def parseZodCapabilities : Option Json → Except String ServerCapabilities
  | some (.obj fs) => do
    let t ← parseZodAnyArray (lookupField fs "tools")
    let r ← parseZodAnyArray (lookupField fs "resources")
    let p ← parseZodAnyArray (lookupField fs "prompts")
    .ok ⟨t, r, p⟩
  | _ => .error "Expected object"

/-- The `metadata` sub-object of `WrapperConfigSchema`. -/
def parseZodMetadata : Option Json → Except String ConfigMetadata
  | some (.obj fs) => do
    let a ← parseZodString (lookupField fs "analyzedAt")
    let tc ← parseZodNumber (lookupField fs "toolCount")
    let rc ← parseZodNumber (lookupField fs "resourceCount")
    let pc ← parseZodNumber (lookupField fs "promptCount")
    .ok ⟨a, tc, rc, pc⟩
  | _ => .error "Expected object"

/-- `WrapperConfigSchema.parse` (`src/types.ts`): a plain structural
object schema — each field is independently type-checked, unknown keys
are stripped, and no cross-field refinement is applied.  Zod reports all
issues at once; the model keeps the first, which claims do not depend
on. -/
def WrapperConfigSchema_parse : Json → Except String WrapperConfig
  | .obj fs => do
    let n ← parseZodString (lookupField fs "name")
    let d ← parseZodString (lookupField fs "description")
    let sp ← parseZodString (lookupField fs "serverPath")
    let a ← parseZodStringArray (lookupField fs "args")
    let sys ← parseZodString (lookupField fs "systemPrompt")
    let caps ← parseZodCapabilities (lookupField fs "capabilities")
    let md ← parseZodMetadata (lookupField fs "metadata")
    .ok ⟨n, d, sp, a, sys, caps, md⟩
  | _ => .error "Expected object"

/-- `ExpertToolInput` (`src/types.ts`). -/
structure ExpertToolInput where
  query : String
  mode : Option String
deriving DecidableEq

/-- `ExpertToolSchema.parse` (`src/types.ts`): `query` a required string,
`mode` an optional member of the enum `discover | execute | explain`.
Error texts approximate Zod's wording; no claim depends on them. -/
def ExpertToolSchema_parse : Option Json → Except String ExpertToolInput
  | some (.obj fs) =>
    match lookupField fs "query" with
    | some (.str q) =>
      match lookupField fs "mode" with
      | none => .ok ⟨q, none⟩
      | some (.str m) =>
        if m = "discover" ∨ m = "execute" ∨ m = "explain" then .ok ⟨q, some m⟩
        else .error ("Invalid enum value. Expected discover | execute | explain, received " ++ m)
      | some _ => .error "Invalid enum value"
    | some _ => .error "Expected string, received wrong type for query"
    | none => .error "Required: query"
  | _ => .error "Expected object"

/-- `ToolDefinition` (`src/types.ts`); `inputSchema` is kept as the JSON
document the source writes literally. -/
structure ToolDefinition where
  name : String
  description : String
  inputSchema : Json

/-! ## `src/wrapper.ts` — the Coordination Engine -/

/-- External calls the engines perform, in the order performed. -/
inductive Event where
  | listToolsCall
  | listResourcesCall
  | listPromptsCall
  | plannerCall (prompt : String)
  | toolInvoked (name : Option Json) (args : Option Json)

/-- Whether an event is a planner round trip. -/
def isPlannerEvent : Event → Bool
  | .plannerCall _ => true
  | _ => false

/-- Whether an event is a tool invocation against the peer. -/
def isToolInvokedEvent : Event → Bool
  | .toolInvoked _ _ => true
  | _ => false

/-- `loadConfig` (`src/wrapper.ts` 23–34).  `fileContent` is the outcome
of `fs.readFile` followed by `JSON.parse`; an error there, or a schema
violation, is wrapped into a "Failed to load configuration" error. -/
def loadConfig (fileContent : Except String Json) : Except String WrapperConfig :=
  match fileContent with
  | .error e => .error ("Failed to load configuration: " ++ e)
  | .ok j =>
    match WrapperConfigSchema_parse j with
    | .error e => .error ("Failed to load configuration: " ++ e)
    | .ok c => .ok c

/-- ASCII model of `String.prototype.toLowerCase` on one character. -/
def jsToLower : Char → Char
  | 'A' => 'a' | 'B' => 'b' | 'C' => 'c' | 'D' => 'd' | 'E' => 'e' | 'F' => 'f'
  | 'G' => 'g' | 'H' => 'h' | 'I' => 'i' | 'J' => 'j' | 'K' => 'k' | 'L' => 'l'
  | 'M' => 'm' | 'N' => 'n' | 'O' => 'o' | 'P' => 'p' | 'Q' => 'q' | 'R' => 'r'
  | 'S' => 's' | 'T' => 't' | 'U' => 'u' | 'V' => 'v' | 'W' => 'w' | 'X' => 'x'
  | 'Y' => 'y' | 'Z' => 'z'
  | c => c

/-- The JavaScript regex class whitespace test for one character. -/
def jsWhitespace (c : Char) : Bool :=
  c = ' ' || c = '\t' || c = '\n' || c = '\r' || c = '\x0b' || c = '\x0c'

/-- `replace(/\s+/g, '-')`: each maximal run of whitespace characters
becomes a single hyphen.  The flag records whether the previous
character was whitespace (i.e. the run is already replaced). -/
def collapseWsAux : Bool → List Char → List Char
  | _, [] => []
  | prevWs, c :: rest =>
    if jsWhitespace c then
      if prevWs then collapseWsAux true rest else '-' :: collapseWsAux true rest
    else c :: collapseWsAux false rest

/-- `config.name.toLowerCase().replace(/\s+/g, '-')`
(`src/wrapper.ts` 40). -/
def expertToolName (name : String) : String :=
  String.mk (collapseWsAux false (name.data.map jsToLower))

/-- `createExpertTool` (`src/wrapper.ts` 39–61). -/
def createExpertTool (config : WrapperConfig) : ToolDefinition :=
  { name := expertToolName config.name
    description := config.description
    inputSchema := Json.obj [
      ("type", .str "object"),
      ("properties", Json.obj [
        ("query", Json.obj [("type", .str "string"),
          ("description", .str "Your request or question")]),
        ("mode", Json.obj [("type", .str "string"),
          ("enum", .arr [.str "discover", .str "execute", .str "explain"]),
          ("description", .str "Operation mode")])]),
      ("required", .arr [.str "query"])] }

/-- One entry of the `results` sequence built by the execute loop
(`src/wrapper.ts` 171–180): the invoked tool name together with either
the returned content or the caught error message. -/
inductive InvocationResult where
  | success (tool : Option Json) (content : Json)
  | failure (tool : Option Json) (error : String)

/-- JSON rendering of a results entry; `undefined`-valued properties are
dropped as `JSON.stringify` does. -/
def invocationResultJson : InvocationResult → Json
  | .success tool content => Json.obj (optField "tool" tool ++ [("result", content)])
  | .failure tool msg => Json.obj (optField "tool" tool ++ [("error", .str msg)])

/-- The `{explanation, results}` object returned by execute mode
(`src/wrapper.ts` 183–186). -/
def executeResultJson (explanation : Option Json) (results : List InvocationResult) : Json :=
  Json.obj (optField "explanation" explanation ++
    [("results", .arr (results.map invocationResultJson))])

/-- The peer as seen through the MCP client: the three enumeration
responses (each an optional array, as the source guards every access
with `?.`/`|| []`) and the `callTool` request. -/
structure PeerOracle where
  listTools : Except String (Option (List Json))
  listResources : Except String (Option (List Json))
  listPrompts : Except String (Option (List Json))
  callTool : Option Json → Option Json → Except String Json

/-- The `for (const toolCall of plan.toolCalls || [])` loop
(`src/wrapper.ts` 165–181).  Each iteration reads `toolCall.name` and
`toolCall.arguments`, invokes the tool, and appends a success or failure
entry; a `TypeError` from reading a property of a `null` element is
rethrown by the `catch` block itself (which re-reads `toolCall.name`)
and aborts the loop. -/
def execLoop (callTool : Option Json → Option Json → Except String Json) :
    List Json → Except String (List InvocationResult) × List Event
  | [] => (.ok [], [])
  | tc :: rest =>
    match jsField tc "name" with
    | .error e => (.error e, [])
    | .ok name =>
      match jsField tc "arguments" with
      | .error e => (.error e, [])
      | .ok args =>
        match callTool name args with
        | .ok content =>
          let (r, evs) := execLoop callTool rest
          (r.map (fun l => InvocationResult.success name content :: l),
           Event.toolInvoked name args :: evs)
        | .error msg =>
          let (r, evs) := execLoop callTool rest
          (r.map (fun l => InvocationResult.failure name msg :: l),
           Event.toolInvoked name args :: evs)

/-- `plan.toolCalls || []` followed by `for...of` iterability
(`src/wrapper.ts` 165): a missing or falsy `toolCalls` degrades to the
empty list; an array iterates its elements; a non-empty string iterates
its characters; any other truthy value raises a `TypeError`. -/
def extractToolCalls (plan : Json) : Except String (List Json) :=
  match jsField plan "toolCalls" with
  | .error e => .error e
  | .ok none => .ok []
  | .ok (some v) =>
    if jsTruthy v then
      match v with
      | .arr xs => .ok xs
      | .str s => .ok (s.data.map (fun c => Json.str (String.mk [c])))
      | _ => .error "TypeError: plan.toolCalls is not iterable"
    else .ok []

/-- The coordination prompt template (`src/wrapper.ts` 132–152). -/
def coordinationPrompt (systemPrompt : String) (tools : List Json) (query : String) : String :=
  "\n" ++ systemPrompt ++ "\n\nAvailable tools:\n" ++ jsonStringify (.arr tools) ++
  "\n\nUser query: " ++ query ++
  "\n\nBased on the user\x27s query and available tools, determine which tool(s) to use and with what arguments.\nRespond with a JSON object in this format:\n\x7b\n  \"toolCalls\": [\n    \x7b\n      \"name\": \"tool_name\",\n      \"arguments\": \x7b ... \x7d\n    \x7d\n  ],\n  \"explanation\": \"Brief explanation of what you\x27re doing\"\n\x7d\n\nRespond ONLY with valid JSON."

/-- The error wrapper of the execute-mode `catch` (`src/wrapper.ts`
187–189). -/
def coordinateError (e : String) : String :=
  "Failed to coordinate with wrapped server: " ++ e

/-- The execute-mode body inside the `try` (`src/wrapper.ts` 154–189):
planner round trip, `JSON.parse` of its text, the execute loop, and the
final `{explanation, results}` object; any exception is wrapped into a
"Failed to coordinate with wrapped server" error. -/
def handleExecuteMode (prompt : String)
    (planner : String → Except String String)
    (jsonParse : String → Except String Json)
    (callTool : Option Json → Option Json → Except String Json) :
    Except String Json × List Event :=
  match planner prompt with
  | .error e => (.error (coordinateError e), [.plannerCall prompt])
  | .ok text =>
    match jsonParse text with
    | .error e => (.error (coordinateError e), [.plannerCall prompt])
    | .ok plan =>
      match extractToolCalls plan with
      | .error e => (.error (coordinateError e), [.plannerCall prompt])
      | .ok tcs =>
        match execLoop callTool tcs with
        | (.error e, evs) => (.error (coordinateError e), Event.plannerCall prompt :: evs)
        | (.ok results, evs) =>
          match jsField plan "explanation" with
          | .error e => (.error (coordinateError e), Event.plannerCall prompt :: evs)
          | .ok explanation =>
            (.ok (executeResultJson explanation results), Event.plannerCall prompt :: evs)

/-- `mode || 'execute'` (`src/wrapper.ts` 98). -/
def effectiveModeOf : Option String → String
  | none => "execute"
  | some m => if m = "" then "execute" else m

/-- Join of the tool names in explain mode:
`tools.tools?.map(t => t.name).join(', ')` — `join` renders `null` and
`undefined` elements as the empty string. -/
def joinElemStr : Option Json → String
  | none => ""
  | some .null => ""
  | some j => jsStringOfJson j

/-- `Array.prototype.join(', ')` over the mapped names. -/
def jsJoinNames : List (Option Json) → String
  | [] => ""
  | [x] => joinElemStr x
  | x :: y :: xs => joinElemStr x ++ ", " ++ jsJoinNames (y :: xs)

/-- The explain-mode return object (`src/wrapper.ts` 121–126), given
the already-joined `availableTools` listing. -/
def explainResultJson (config : WrapperConfig) (availableTools : String) : Json :=
  Json.obj [
    ("description", .str config.description),
    ("systemPrompt", .str config.systemPrompt),
    ("availableTools", .str availableTools),
    ("usage", .str "Ask me to perform tasks and I\x27ll use the appropriate tools from the wrapped server.")]

/-- `handleExpertQuery` (`src/wrapper.ts` 92–190): mode dispatch.
Discover mode issues the three enumerations via `Promise.all` (all three
requests are started; the model propagates the first listed rejection);
explain mode enumerates tools only; every other effective mode falls
through to the execute path. -/
def handleExpertQuery (query : String) (mode : Option String) (config : WrapperConfig)
    (peer : PeerOracle) (planner : String → Except String String)
    (jsonParse : String → Except String Json) :
    Except String Json × List Event :=
  let effectiveMode := effectiveModeOf mode
  if effectiveMode = "discover" then
    let evs := [Event.listToolsCall, Event.listResourcesCall, Event.listPromptsCall]
    match peer.listTools with
    | .error e => (.error e, evs)
    | .ok tools =>
      match peer.listResources with
      | .error e => (.error e, evs)
      | .ok resources =>
        match peer.listPrompts with
        | .error e => (.error e, evs)
        | .ok prompts =>
          (.ok (Json.obj [
            ("summary", .str (config.name ++ " provides " ++
              toString (tools.getD []).length ++ " tools, " ++
              toString (resources.getD []).length ++ " resources, and " ++
              toString (prompts.getD []).length ++ " prompts")),
            ("tools", .arr (tools.getD [])),
            ("resources", .arr (resources.getD [])),
            ("prompts", .arr (prompts.getD []))]), evs)
  else if effectiveMode = "explain" then
    match peer.listTools with
    | .error e => (.error e, [Event.listToolsCall])
    | .ok tools =>
      match tools with
      | none => (.ok (explainResultJson config "none"), [Event.listToolsCall])
      | some ts =>
        match ts.mapM (fun t => jsField t "name") with
        | .error e => (.error e, [Event.listToolsCall])
        | .ok names =>
          let joined := jsJoinNames names
          (.ok (explainResultJson config (if joined = "" then "none" else joined)),
           [Event.listToolsCall])
  else
    match peer.listTools with
    | .error e => (.error e, [Event.listToolsCall])
    | .ok tools =>
      let prompt := coordinationPrompt config.systemPrompt (tools.getD []) query
      let (res, evs) := handleExecuteMode prompt planner jsonParse peer.callTool
      (res, Event.listToolsCall :: evs)

/-- The `CallToolRequestSchema` handler registered by
`startWrapperServer` (`src/wrapper.ts` 232–253): reject unknown entry
points, validate the arguments with `ExpertToolSchema`, then run
`handleExpertQuery`.  Arguments validation happens before any peer or
planner interaction. -/
def callToolHandler (config : WrapperConfig) (requestName : String)
    (requestArgs : Option Json) (peer : PeerOracle)
    (planner : String → Except String String)
    (jsonParse : String → Except String Json) :
    Except String Json × List Event :=
  if requestName ≠ (createExpertTool config).name then
    (.error ("Unknown tool: " ++ requestName), [])
  else
    match ExpertToolSchema_parse requestArgs with
    | .error e => (.error e, [])
    | .ok args => handleExpertQuery args.query args.mode config peer planner jsonParse

/-- Observable steps of the SIGINT handler. -/
inductive ShutdownAction where
  | closePeer
  | closeTransport
  | exitProcess
deriving DecidableEq

/-- The SIGINT handler of `startWrapperServer` (`src/wrapper.ts`
260–264): `await wrappedClient.close(); await server.close();
process.exit(0)`.  An `await` whose promise rejects aborts the handler,
leaving the remaining steps unattempted; the performed actions are
returned in order together with the aborting error, if any. -/
def shutdownHandler (closePeer closeTransport : Except String Unit) :
    List ShutdownAction × Option String :=
  match closePeer with
  | .error e => ([.closePeer], some e)
  | .ok _ =>
    match closeTransport with
    | .error e => ([.closePeer, .closeTransport], some e)
    | .ok _ => ([.closePeer, .closeTransport, .exitProcess], none)

/-! ## `src/analyzer.ts` — the Discovery Engine -/

/-- `discoverCapabilities` (`src/analyzer.ts` 58–96): the tool list is
requested first and a failure there is rethrown (resources and prompts
are then never requested); a failing resource or prompt enumeration is
caught and replaced by an empty response. -/
def discoverCapabilities
    (toolsResp resourcesResp promptsResp : Except String (Option (List Json))) :
    Except String ServerCapabilities × List Event :=
  match toolsResp with
  | .error e => (.error e, [Event.listToolsCall])
  | .ok tools =>
    let resources := match resourcesResp with
      | .error _ => some []
      | .ok r => r
    let prompts := match promptsResp with
      | .error _ => some []
      | .ok p => p
    (.ok ⟨tools.getD [], resources.getD [], prompts.getD []⟩,
     [Event.listToolsCall, Event.listResourcesCall, Event.listPromptsCall])

/-- The analysis prompt template (`src/analyzer.ts` 102–128). -/
def analysisPrompt (caps : ServerCapabilities) : String :=
  "\nYou are analyzing an MCP (Model Context Protocol) server\x27s capabilities to generate an expert tool configuration.\n\nThe server provides the following capabilities:\n\nTOOLS (" ++
  toString caps.tools.length ++ "):\n" ++ jsonStringify (.arr caps.tools) ++
  "\n\nRESOURCES (" ++ toString caps.resources.length ++ "):\n" ++
  jsonStringify (.arr caps.resources) ++
  "\n\nPROMPTS (" ++ toString caps.prompts.length ++ "):\n" ++
  jsonStringify (.arr caps.prompts) ++
  "\n\nBased on these capabilities, generate a JSON configuration with the following structure:\n\x7b\n  \"expertName\": \"A concise, descriptive name for this expert (e.g., \x27File System Expert\x27, \x27Database Manager\x27)\",\n  \"expertDescription\": \"A clear description of what this MCP server does and its primary capabilities\",\n  \"systemPrompt\": \"A system prompt for an LLM to understand how to coordinate with this MCP server. Include key capabilities and usage guidance.\",\n  \"capabilities\": \x7b\n    \"tools\": [\"list\", \"of\", \"tool\", \"names\"],\n    \"resources\": [\"list\", \"of\", \"resource\", \"uris\"],\n    \"prompts\": [\"list\", \"of\", \"prompt\", \"names\"]\n  \x7d\n\x7d\n\nGenerate ONLY valid JSON without any markdown formatting or additional text."

/-- `analyzeWithLLM` (`src/analyzer.ts` 101–141): planner round trip and
`JSON.parse` of its text.  The parsed document is cast, not validated —
any valid JSON is accepted as the analysis. -/
def analyzeWithLLM (caps : ServerCapabilities)
    (planner : String → Except String String)
    (jsonParse : String → Except String Json) :
    Except String Json × List Event :=
  let prompt := analysisPrompt caps
  match planner prompt with
  | .error e => (.error ("Failed to analyze server capabilities: " ++ e), [.plannerCall prompt])
  | .ok text =>
    match jsonParse text with
    | .error e => (.error ("Failed to analyze server capabilities: " ++ e), [.plannerCall prompt])
    | .ok j => (.ok j, [.plannerCall prompt])

/-- The `ServerConfig` object assembled by `analyzeServer`
(`src/analyzer.ts` 183–196) before serialization.  The three
planner-authored identity fields are raw JSON properties (`undefined`
when the analysis document lacks them, since the cast performs no
validation). -/
structure ServerConfigModel where
  name : Option Json
  description : Option Json
  serverPath : String
  args : List String
  systemPrompt : Option Json
  capabilities : ServerCapabilities
  analyzedAt : String

/-- JSON rendering of a Capability Manifest. -/
def capsJson (c : ServerCapabilities) : Json :=
  Json.obj [("tools", .arr c.tools), ("resources", .arr c.resources),
            ("prompts", .arr c.prompts)]

/-- `JSON.stringify` tree of the `ServerConfig` object written by
`saveConfiguration`: the `metadata` counts are computed from the
capability sequence lengths (`src/analyzer.ts` 190–195);
`undefined`-valued identity fields are dropped. -/
def serverConfigJson (c : ServerConfigModel) : Json :=
  Json.obj (optField "name" c.name ++ optField "description" c.description ++
    [("serverPath", .str c.serverPath), ("args", .arr (c.args.map Json.str))] ++
    optField "systemPrompt" c.systemPrompt ++
    [("capabilities", capsJson c.capabilities),
     ("metadata", Json.obj [
       ("analyzedAt", .str c.analyzedAt),
       ("toolCount", .num (c.capabilities.tools.length : Int)),
       ("resourceCount", .num (c.capabilities.resources.length : Int)),
       ("promptCount", .num (c.capabilities.prompts.length : Int))])])

/-- The `ServerConfig` literal of `analyzeServer` (`src/analyzer.ts`
183–196): reading the three identity properties off the analysis
document raises a `TypeError` when the document is `null`. -/
def buildServerConfig (analysis : Json) (serverPath : String) (args : List String)
    (caps : ServerCapabilities) (nowIso : String) : Except String ServerConfigModel :=
  match jsField analysis "expertName" with
  | .error e => .error e
  | .ok n =>
    match jsField analysis "expertDescription" with
    | .error e => .error e
    | .ok d =>
      match jsField analysis "systemPrompt" with
      | .error e => .error e
      | .ok s => .ok ⟨n, d, serverPath, args, s, caps, nowIso⟩

/-- `saveConfiguration` (`src/analyzer.ts` 146–155): derives the file
name from the slugified `config.name` plus `Date.now()` and writes the
serialized configuration; `toLowerCase` on a missing or non-string name
raises a `TypeError`.  Returns the path and the written document. -/
def saveConfiguration (cfg : ServerConfigModel) (nowMs : Nat) :
    Except String (String × Json) :=
  match cfg.name with
  | some (.str s) =>
    .ok ("configs/" ++ expertToolName s ++ "-" ++ toString nowMs ++ ".json",
         serverConfigJson cfg)
  | some .null => .error "TypeError: Cannot read properties of null (reading toLowerCase)"
  | none => .error "TypeError: Cannot read properties of undefined (reading toLowerCase)"
  | some _ => .error "TypeError: config.name.toLowerCase is not a function"

/-- The `AnalysisResult` returned by `analyzeServer` (`src/analyzer.ts`
198–204). -/
def analysisResultJson (cfg : ServerConfigModel) (configPath : String) : Json :=
  Json.obj (optField "expertName" cfg.name ++
    optField "expertDescription" cfg.description ++
    optField "systemPrompt" cfg.systemPrompt ++
    [("capabilities", capsJson cfg.capabilities), ("configPath", .str configPath)])

/-- Outcome of the `try` block of `analyzeServer` (`src/analyzer.ts`
171–205): the result or error, the external events performed, whether
the peer connection was opened (`client` non-null), and the descriptor
document written, if any. -/
structure TryOutcome where
  result : Except String Json
  events : List Event
  opened : Bool
  written : Option Json

/-- The body of `analyzeServer`'s `try` block: connect, discover,
analyze, persist.  A failed connection leaves `client` null. -/
def analyzerTryBody (connectResult : Except String Unit)
    (toolsResp resourcesResp promptsResp : Except String (Option (List Json)))
    (planner : String → Except String String)
    (jsonParse : String → Except String Json)
    (serverPath : String) (args : List String) (nowIso : String) (nowMs : Nat) :
    TryOutcome :=
  match connectResult with
  | .error e => ⟨.error ("Failed to connect to MCP server: " ++ e), [], false, none⟩
  | .ok _ =>
    match discoverCapabilities toolsResp resourcesResp promptsResp with
    | (.error e, evs) => ⟨.error e, evs, true, none⟩
    | (.ok caps, evs) =>
      match analyzeWithLLM caps planner jsonParse with
      | (.error e, evs2) => ⟨.error e, evs ++ evs2, true, none⟩
      | (.ok analysis, evs2) =>
        match buildServerConfig analysis serverPath args caps nowIso with
        | .error e => ⟨.error e, evs ++ evs2, true, none⟩
        | .ok cfg =>
          match saveConfiguration cfg nowMs with
          | .error e => ⟨.error e, evs ++ evs2, true, none⟩
          | .ok (path, written) =>
            ⟨.ok (analysisResultJson cfg path), evs ++ evs2, true, some written⟩

/-- Outcome of one full `analyzeServer` run, including how often the
peer connection was closed. -/
structure DiscoveryRun where
  result : Except String Json
  events : List Event
  opened : Bool
  closes : Nat
  written : Option Json

/-- `analyzeServer` (`src/analyzer.ts` 163–212): `validateEnvironment`
fails fast before the `try` block; the `finally` block closes the
client exactly when it is non-null (i.e. when the connection was
opened), on success and failure paths alike. -/
def analyzeServer (apiKeyPresent : Bool) (connectResult : Except String Unit)
    (toolsResp resourcesResp promptsResp : Except String (Option (List Json)))
    (planner : String → Except String String)
    (jsonParse : String → Except String Json)
    (serverPath : String) (args : List String) (nowIso : String) (nowMs : Nat) :
    DiscoveryRun :=
  if apiKeyPresent then
    let t := analyzerTryBody connectResult toolsResp resourcesResp promptsResp
      planner jsonParse serverPath args nowIso nowMs
    ⟨t.result, t.events, t.opened, if t.opened then 1 else 0, t.written⟩
  else
    ⟨.error "OPENAI_API_KEY environment variable is required", [], false, 0, none⟩

/-! ## Spec-side definitions

Definitions in this section state the shapes and characterizations the
specification talks about; they are compared against the source-derived
definitions above by the theorems below. -/

/-- Spec-side: the degraded value of an optional enumeration — a failed
or empty response becomes the empty sequence. -/
def degradeEnum : Except String (Option (List Json)) → List Json
  | .error _ => []
  | .ok o => o.getD []

/-- The `name` property of a planned call. -/
def callName : Json → Option Json
  | .obj fs => lookupField fs "name"
  | _ => none

/-- The `arguments` property of a planned call. -/
def callArgs : Json → Option Json
  | .obj fs => lookupField fs "arguments"
  | _ => none

/-- The `explanation` property of a parsed plan. -/
def planExplanation : Json → Option Json
  | .obj fs => lookupField fs "explanation"
  | _ => none

/-- Spec-side: a planned call of the Invocation Plan shape — an object
naming a tool. -/
def isToolCallObj : Json → Bool
  | .obj fs =>
    match lookupField fs "name" with
    | some (.str _) => true
    | _ => false
  | _ => false

/-- Spec-side: the Invocation Plan shape — an object whose `toolCalls`
property is a sequence of named calls. -/
def isWellFormedPlan : Json → Bool
  | .obj fs =>
    match lookupField fs "toolCalls" with
    | some (.arr xs) => xs.all isToolCallObj
    | _ => false
  | _ => false

/-- Spec-side: the results entry one planned call must produce —
`{tool, result}` if the peer call succeeds, `{tool, error}` if it
fails. -/
def expectedOutcome (callTool : Option Json → Option Json → Except String Json)
    (tc : Json) : InvocationResult :=
  match callTool (callName tc) (callArgs tc) with
  | .ok content => .success (callName tc) content
  | .error msg => .failure (callName tc) msg

/-- Spec-side: a name assembled from a first word and a list of
(separator, next word) groups. -/
def interleaveWords : List Char → List (List Char × List Char) → List Char
  | w, [] => w
  | w, (s, w') :: rest => w ++ s ++ interleaveWords w' rest

/-- Spec-side: a non-empty whitespace-free word. -/
def isWordChars (w : List Char) : Bool :=
  !w.isEmpty && w.all (fun c => !jsWhitespace c)

/-- Spec-side: a non-empty run of inter-word whitespace. -/
def isSepChars (s : List Char) : Bool :=
  !s.isEmpty && s.all jsWhitespace

/-- A descriptor document with the schema's field layout and freely
chosen provenance counts (a test input for the load path). -/
def descriptorJson (name description serverPath : String) (args : List String)
    (systemPrompt : String) (tools resources prompts : List Json)
    (analyzedAt : String) (toolCount resourceCount promptCount : Int) : Json :=
  Json.obj [
    ("name", .str name), ("description", .str description),
    ("serverPath", .str serverPath), ("args", .arr (args.map Json.str)),
    ("systemPrompt", .str systemPrompt),
    ("capabilities", Json.obj [("tools", .arr tools),
      ("resources", .arr resources), ("prompts", .arr prompts)]),
    ("metadata", Json.obj [("analyzedAt", .str analyzedAt),
      ("toolCount", .num toolCount), ("resourceCount", .num resourceCount),
      ("promptCount", .num promptCount)])]

/-- A concrete descriptor whose stored tool count disagrees with its
tool sequence length. -/
def mismatchedDescriptor : Json :=
  descriptorJson "Calculator Expert" "A calculator" "./server.js" []
    "You are a calculator." [] [] [] "2025-01-01T00:00:00.000Z" 5 0 0

/-- The configuration `mismatchedDescriptor` loads into. -/
def mismatchedConfig : WrapperConfig :=
  ⟨"Calculator Expert", "A calculator", "./server.js", [],
   "You are a calculator.", ⟨[], [], []⟩,
   ⟨"2025-01-01T00:00:00.000Z", 5, 0, 0⟩⟩

/-- A concrete loaded configuration used by witnesses. -/
def sampleConfig : WrapperConfig :=
  ⟨"Calculator Expert", "A calculator", "./server.js", [],
   "You are a calculator.", ⟨[], [], []⟩,
   ⟨"2025-01-01T00:00:00.000Z", 0, 0, 0⟩⟩

/-- A concrete peer used by witnesses. -/
def samplePeer : PeerOracle :=
  ⟨.ok (some []), .ok (some []), .ok (some []), fun _ _ => .error "no such tool"⟩

/-- A concrete two-call plan whose first tool does not exist on the
peer (the partial-failure scenario). -/
def samplePlan : Json :=
  Json.obj [
    ("toolCalls", .arr [
      Json.obj [("name", .str "missing_tool"), ("arguments", Json.obj [])],
      Json.obj [("name", .str "add"),
        ("arguments", Json.obj [("a", .num 15), ("b", .num 27)])]]),
    ("explanation", .str "Adding the numbers")]

/-- A concrete peer whose `add` tool succeeds and whose other tools are
missing. -/
def sampleCallTool : Option Json → Option Json → Except String Json
  | some (.str "add"), _ => .ok (.arr [Json.obj [("type", .str "text"), ("text", .str "42")]])
  | _, _ => .error "Tool not found"

/-- The planned-call sequence of a well-formed plan. -/
def planToolCalls : Json → List Json
  | .obj fs =>
    match lookupField fs "toolCalls" with
    | some (.arr xs) => xs
    | _ => []
  | _ => []

/-- A concrete peer exposing a working `add` tool, used by witnesses. -/
def samplePeerAdd : PeerOracle :=
  ⟨.ok (some []), .ok (some []), .ok (some []), sampleCallTool⟩

/-- A concrete planner analysis document, used by witnesses. -/
def sampleAnalysis : Json :=
  Json.obj [("expertName", .str "Calc Expert"),
            ("expertDescription", .str "A calculator expert"),
            ("systemPrompt", .str "You coordinate a calculator.")]

/-- A concrete tool descriptor, used by witnesses. -/
def sampleTool : Json :=
  Json.obj [("name", .str "add"), ("description", .str "Adds two numbers")]

/-- A configuration whose name has a two-space inter-word run, used by
the entry-point-name witness. -/
def spacedNameConfig : WrapperConfig :=
  ⟨"My  Expert", "A sample expert", "./server.js", [], "sys",
   ⟨[], [], []⟩, ⟨"2025-01-01T00:00:00.000Z", 0, 0, 0⟩⟩

/-- The descriptor document the witness discovery run writes. -/
def roundtripWritten : Json :=
  serverConfigJson ⟨some (.str "Calc Expert"), some (.str "A calculator expert"),
    "./server.js", [], some (.str "You coordinate a calculator."),
    ⟨[sampleTool], [], []⟩, "2025-01-01T00:00:00.000Z"⟩

/-- The configuration the witness descriptor loads into. -/
def roundtripConfig : WrapperConfig :=
  ⟨"Calc Expert", "A calculator expert", "./server.js", [],
   "You coordinate a calculator.", ⟨[sampleTool], [], []⟩,
   ⟨"2025-01-01T00:00:00.000Z", 1, 0, 0⟩⟩

/-! ## Helper lemmas -/

theorem parseZodStringElems_map (l : List String) :
    parseZodStringElems (l.map Json.str) = .ok l := by
  induction l with
  | nil => rfl
  | cons s rest ih => simp [parseZodStringElems, ih, Except.map]

theorem extractToolCalls_of_wf (plan : Json) (h : isWellFormedPlan plan = true) :
    extractToolCalls plan = .ok (planToolCalls plan) := by
  cases plan with
  | obj fs =>
    simp only [isWellFormedPlan] at h
    simp only [extractToolCalls, planToolCalls, jsField]
    cases hl : lookupField fs "toolCalls" with
    | none => simp
    | some v =>
      rw [hl] at h
      cases v <;> simp_all [jsTruthy]
  | null => simp [isWellFormedPlan] at h
  | bool b => simp [isWellFormedPlan] at h
  | num n => simp [isWellFormedPlan] at h
  | str s => simp [isWellFormedPlan] at h
  | arr xs => simp [isWellFormedPlan] at h

theorem toolCalls_all_wf (plan : Json) (h : isWellFormedPlan plan = true) :
    (planToolCalls plan).all isToolCallObj = true := by
  cases plan with
  | obj fs =>
    simp only [isWellFormedPlan] at h
    simp only [planToolCalls]
    cases hl : lookupField fs "toolCalls" with
    | none => rw [hl] at h; exact absurd h (by simp)
    | some v =>
      rw [hl] at h
      cases v <;> simp_all
  | null => simp [isWellFormedPlan] at h
  | bool b => simp [isWellFormedPlan] at h
  | num n => simp [isWellFormedPlan] at h
  | str s => simp [isWellFormedPlan] at h
  | arr xs => simp [isWellFormedPlan] at h

theorem jsField_explanation_of_wf (plan : Json) (h : isWellFormedPlan plan = true) :
    jsField plan "explanation" = .ok (planExplanation plan) := by
  cases plan <;> simp_all [isWellFormedPlan, jsField, planExplanation]

theorem execLoop_characterization
    (callTool : Option Json → Option Json → Except String Json) (xs : List Json)
    (h : xs.all isToolCallObj = true) :
    execLoop callTool xs =
      (.ok (xs.map (expectedOutcome callTool)),
       xs.map fun tc => Event.toolInvoked (callName tc) (callArgs tc)) := by
  induction xs with
  | nil => rfl
  | cons tc rest ih =>
    rw [List.all_cons, Bool.and_eq_true] at h
    obtain ⟨h1, h2⟩ := h
    cases tc <;> simp [isToolCallObj] at h1
    case obj fs =>
      simp only [execLoop, jsField, ih h2]
      cases hct : callTool (lookupField fs "name") (lookupField fs "arguments") <;>
        simp [hct, expectedOutcome, callName, callArgs, Except.map]

/-! ## Claim theorems -/

/-- C1. In execute mode, given a successfully parsed Invocation Plan,
the engine attempts every planned call strictly in plan order (the event
trace invokes each planned call's name with its supplied arguments, in
sequence); each call contributes exactly one results entry, in plan
order — `{tool, result}` on success, `{tool, error}` on failure — and a
failing call never prevents the later planned calls from executing. -/
theorem execute_attempts_every_planned_call
    (config : WrapperConfig) (q : String) (peer : PeerOracle)
    (planner : String → Except String String) (jsonParse : String → Except String Json)
    (tools : Option (List Json)) (text : String) (plan : Json)
    (htools : peer.listTools = .ok tools)
    (hplanner : planner (coordinationPrompt config.systemPrompt (tools.getD []) q) = .ok text)
    (hparse : jsonParse text = .ok plan)
    (hwf : isWellFormedPlan plan = true) :
    handleExpertQuery q (some "execute") config peer planner jsonParse =
      (.ok (executeResultJson (planExplanation plan)
         ((planToolCalls plan).map (expectedOutcome peer.callTool))),
       Event.listToolsCall ::
       Event.plannerCall (coordinationPrompt config.systemPrompt (tools.getD []) q) ::
       (planToolCalls plan).map fun tc => Event.toolInvoked (callName tc) (callArgs tc)) := by
  simp only [handleExpertQuery, effectiveModeOf]
  simp only [handleExecuteMode, htools, hplanner, hparse,
    extractToolCalls_of_wf plan hwf,
    execLoop_characterization peer.callTool (planToolCalls plan) (toolCalls_all_wf plan hwf),
    jsField_explanation_of_wf plan hwf]
  simp

/-- Witness for C1: the partial-failure scenario — a two-call plan whose
first tool does not exist on the peer still executes the second call and
returns one entry per planned call. -/
theorem execute_attempts_every_planned_call_witness :
    handleExpertQuery "Please add 15 and 27" (some "execute") sampleConfig
        samplePeerAdd (fun _ => .ok "plan text") (fun _ => .ok samplePlan) =
      (.ok (executeResultJson (planExplanation samplePlan)
         ((planToolCalls samplePlan).map (expectedOutcome sampleCallTool))),
       Event.listToolsCall ::
       Event.plannerCall (coordinationPrompt sampleConfig.systemPrompt [] "Please add 15 and 27") ::
       (planToolCalls samplePlan).map fun tc => Event.toolInvoked (callName tc) (callArgs tc)) :=
  execute_attempts_every_planned_call sampleConfig "Please add 15 and 27"
    samplePeerAdd (fun _ => .ok "plan text") (fun _ => .ok samplePlan)
    (some []) "plan text" samplePlan rfl rfl rfl rfl

/-- C2 counterexample: a planner response whose text parses as JSON
(`\x7b\x7d`, the empty object) but fails to parse into the expected
Invocation Plan shape does NOT fail the query — the execute path
returns a successful `{results: []}` response. -/
theorem plan_shape_not_rejected_cex :
    isWellFormedPlan (Json.obj []) = false ∧
    handleExpertQuery "q" (some "execute") sampleConfig samplePeer
        (fun _ => .ok "\x7b\x7d") (fun _ => .ok (Json.obj [])) =
      (.ok (Json.obj [("results", .arr [])]),
       [Event.listToolsCall,
        Event.plannerCall (coordinationPrompt sampleConfig.systemPrompt [] "q")]) :=
  ⟨rfl, rfl⟩

/-- C2 (amended). In execute mode, for every planner response whose
text fails to parse as JSON, the query fails with a "failed to
coordinate with wrapped server" error and no tool is invoked against
the peer; a response that parses as JSON but lacks the Invocation Plan
shape is not rejected. -/
theorem planner_parse_failure_fails_query
    (config : WrapperConfig) (q : String) (peer : PeerOracle)
    (planner : String → Except String String) (jsonParse : String → Except String Json)
    (tools : Option (List Json)) (text e : String)
    (htools : peer.listTools = .ok tools)
    (hplanner : planner (coordinationPrompt config.systemPrompt (tools.getD []) q) = .ok text)
    (hparse : jsonParse text = .error e) :
    handleExpertQuery q (some "execute") config peer planner jsonParse =
      (.error (coordinateError e),
       [Event.listToolsCall,
        Event.plannerCall (coordinationPrompt config.systemPrompt (tools.getD []) q)]) ∧
    ((handleExpertQuery q (some "execute") config peer planner jsonParse).2.any
       isToolInvokedEvent) = false := by
  have h : handleExpertQuery q (some "execute") config peer planner jsonParse =
      (.error (coordinateError e),
       [Event.listToolsCall,
        Event.plannerCall (coordinationPrompt config.systemPrompt (tools.getD []) q)]) := by
    simp only [handleExpertQuery, effectiveModeOf]
    simp only [handleExecuteMode, htools, hplanner, hparse]
    simp
  exact ⟨h, by rw [h]; rfl⟩

/-- Witness for C2 (amended): a concrete planner returning unparsable
text makes the query fail and invokes no tool. -/
theorem planner_parse_failure_fails_query_witness :
    handleExpertQuery "q" (some "execute") sampleConfig samplePeer
        (fun _ => .ok "not json") (fun _ => .error "Unexpected token") =
      (.error (coordinateError "Unexpected token"),
       [Event.listToolsCall,
        Event.plannerCall (coordinationPrompt sampleConfig.systemPrompt [] "q")]) ∧
    ((handleExpertQuery "q" (some "execute") sampleConfig samplePeer
        (fun _ => .ok "not json") (fun _ => .error "Unexpected token")).2.any
       isToolInvokedEvent) = false :=
  planner_parse_failure_fails_query sampleConfig "q" samplePeer
    (fun _ => .ok "not json") (fun _ => .error "Unexpected token")
    (some []) "not json" "Unexpected token" rfl rfl rfl

/-- C3 counterexample: a descriptor whose stored `toolCount` (5)
differs from its `tools` sequence length (0) is accepted by
`loadConfig` — no count/length invariant is checked at load time. -/
theorem load_accepts_mismatched_counts_cex :
    loadConfig (.ok mismatchedDescriptor) = .ok mismatchedConfig ∧
    mismatchedConfig.metadata.toolCount ≠
      (mismatchedConfig.capabilities.tools.length : Int) :=
  ⟨rfl, by decide⟩

/-- C3 (amended). Loading an Expert Descriptor validates only the
field-by-field shape of the document (string identity fields, string
argument list, capability arrays, numeric counts); the stored
`toolCount` / `resourceCount` / `promptCount` are NOT compared with the
capability sequence lengths, so a descriptor with arbitrary —
including mismatched — counts loads successfully. -/
theorem load_validates_shape_not_counts
    (name description serverPath systemPrompt analyzedAt : String)
    (args : List String) (tools resources prompts : List Json)
    (toolCount resourceCount promptCount : Int) :
    loadConfig (.ok (descriptorJson name description serverPath args systemPrompt
        tools resources prompts analyzedAt toolCount resourceCount promptCount)) =
      .ok ⟨name, description, serverPath, args, systemPrompt,
           ⟨tools, resources, prompts⟩,
           ⟨analyzedAt, toolCount, resourceCount, promptCount⟩⟩ := by
  simp [loadConfig, WrapperConfigSchema_parse, descriptorJson, lookupField,
    parseZodString, parseZodStringArray, parseZodAnyArray, parseZodNumber,
    parseZodCapabilities, parseZodMetadata, parseZodStringElems_map,
    Except.bind, bind]

/-- C4. Discovery treats tool enumeration as mandatory but resource and
prompt enumeration as optional: when the tool list succeeds, any failed
(or empty) resource / prompt response degrades to the empty sequence and
discovery completes without raising; when the tool list fails, the error
propagates out of `analyzeServer` unchanged and no planner call is
made. -/
theorem discovery_tools_mandatory_resources_prompts_optional
    (tools : Option (List Json)) (rResp pResp : Except String (Option (List Json)))
    (e : String) (planner : String → Except String String)
    (jsonParse : String → Except String Json)
    (serverPath : String) (args : List String) (nowIso : String) (nowMs : Nat) :
    discoverCapabilities (.ok tools) rResp pResp =
      (.ok ⟨tools.getD [], degradeEnum rResp, degradeEnum pResp⟩,
       [Event.listToolsCall, Event.listResourcesCall, Event.listPromptsCall]) ∧
    (analyzeServer true (.ok ()) (.error e) rResp pResp planner jsonParse
        serverPath args nowIso nowMs).result = .error e ∧
    ((analyzeServer true (.ok ()) (.error e) rResp pResp planner jsonParse
        serverPath args nowIso nowMs).events.any isPlannerEvent) = false := by
  refine ⟨?_, ?_, ?_⟩
  · cases rResp <;> cases pResp <;> simp [discoverCapabilities, degradeEnum]
  · simp [analyzeServer, analyzerTryBody, discoverCapabilities]
  · simp [analyzeServer, analyzerTryBody, discoverCapabilities, isPlannerEvent]

/-- C5. On every exit path of a discovery run on which the peer
connection of Step 1 was opened — success, enumeration failure,
planner/analysis failure, or persistence failure — the connection is
closed exactly once. -/
theorem discovery_closes_connection_once
    (apiKeyPresent : Bool) (connectResult : Except String Unit)
    (toolsResp resourcesResp promptsResp : Except String (Option (List Json)))
    (planner : String → Except String String) (jsonParse : String → Except String Json)
    (serverPath : String) (args : List String) (nowIso : String) (nowMs : Nat)
    (hopen : (analyzeServer apiKeyPresent connectResult toolsResp resourcesResp
        promptsResp planner jsonParse serverPath args nowIso nowMs).opened = true) :
    (analyzeServer apiKeyPresent connectResult toolsResp resourcesResp
        promptsResp planner jsonParse serverPath args nowIso nowMs).closes = 1 := by
  cases apiKeyPresent with
  | false => simp [analyzeServer] at hopen
  | true => simp_all [analyzeServer]

/-- Witness for C5: a concrete successful discovery run closes the
connection exactly once. -/
theorem discovery_closes_connection_once_witness :
    (analyzeServer true (.ok ()) (.ok (some [sampleTool])) (.ok none) (.error "no prompts")
        (fun _ => .ok "analysis") (fun _ => .ok sampleAnalysis)
        "./server.js" [] "2025-01-01T00:00:00.000Z" 17).closes = 1 :=
  discovery_closes_connection_once true (.ok ()) (.ok (some [sampleTool])) (.ok none)
    (.error "no prompts") (fun _ => .ok "analysis") (fun _ => .ok sampleAnalysis)
    "./server.js" [] "2025-01-01T00:00:00.000Z" 17 rfl

/-- C6 counterexample: when the peer-connection close rejects, the
serving-transport close is never attempted — refuting "both close
operations are attempted even if one of them errors". -/
theorem shutdown_first_close_error_skips_second_cex :
    shutdownHandler (.error "peer close failed") (.ok ()) =
      ([ShutdownAction.closePeer], some "peer close failed") ∧
    ShutdownAction.closeTransport ∉
      (shutdownHandler (.error "peer close failed") (.ok ())).1 :=
  ⟨rfl, by decide⟩

/-- C6 (amended). On a termination signal the engine awaits the peer
connection close, then the serving transport close, then exits the
process, in that order; however the transport close is attempted only
if the peer close succeeded, and the exit only if both closes
succeeded — a close error aborts the remaining steps. -/
theorem shutdown_close_order (closePeer closeTransport : Except String Unit) :
    (shutdownHandler closePeer closeTransport).1.head? = some ShutdownAction.closePeer ∧
    (ShutdownAction.closeTransport ∈ (shutdownHandler closePeer closeTransport).1 ↔
      closePeer = .ok ()) ∧
    (ShutdownAction.exitProcess ∈ (shutdownHandler closePeer closeTransport).1 ↔
      (closePeer = .ok () ∧ closeTransport = .ok ())) := by
  cases closePeer with
  | error e => simp [shutdownHandler]
  | ok u =>
    cases closeTransport with
    | error e2 => cases u; simp [shutdownHandler]
    | ok u2 => cases u; cases u2; simp [shutdownHandler]

/-- C9. An entry-point invocation whose mode value is outside
`{discover, execute, explain}` is rejected by the argument schema as a
caller error before any peer or planner call is made (the event trace is
empty), and is in particular not treated as execute. -/
theorem unknown_mode_rejected_before_calls
    (config : WrapperConfig) (q m : String) (peer : PeerOracle)
    (planner : String → Except String String) (jsonParse : String → Except String Json)
    (h1 : m ≠ "discover") (h2 : m ≠ "execute") (h3 : m ≠ "explain") :
    callToolHandler config (createExpertTool config).name
        (some (Json.obj [("query", .str q), ("mode", .str m)])) peer planner jsonParse =
      (.error ("Invalid enum value. Expected discover | execute | explain, received " ++ m),
       []) := by
  simp [callToolHandler, ExpertToolSchema_parse, lookupField, h1, h2, h3]

/-- Witness for C9: `mode: "summarize"` is rejected with an empty event
trace. -/
theorem unknown_mode_rejected_before_calls_witness :
    callToolHandler sampleConfig (createExpertTool sampleConfig).name
        (some (Json.obj [("query", .str "do something"), ("mode", .str "summarize")]))
        samplePeer (fun _ => .ok "plan") (fun _ => .ok samplePlan) =
      (.error ("Invalid enum value. Expected discover | execute | explain, received summarize"),
       []) :=
  unknown_mode_rejected_before_calls sampleConfig "do something" "summarize"
    samplePeer (fun _ => .ok "plan") (fun _ => .ok samplePlan)
    (by decide) (by decide) (by decide)

/-- C10. In discover and explain modes the result is independent of the
query argument: with the configuration, peer responses, planner and
parser fixed, two entry-point invocations in the same mode with
different query strings return identical outcomes (result and event
trace), and neither mode performs a planner call. -/
theorem discover_explain_query_independent
    (config : WrapperConfig) (q1 q2 m : String) (peer : PeerOracle)
    (planner : String → Except String String) (jsonParse : String → Except String Json)
    (hm : m = "discover" ∨ m = "explain") :
    callToolHandler config (createExpertTool config).name
        (some (Json.obj [("query", .str q1), ("mode", .str m)])) peer planner jsonParse =
      callToolHandler config (createExpertTool config).name
        (some (Json.obj [("query", .str q2), ("mode", .str m)])) peer planner jsonParse ∧
    ((callToolHandler config (createExpertTool config).name
        (some (Json.obj [("query", .str q1), ("mode", .str m)])) peer planner
        jsonParse).2.any isPlannerEvent) = false := by
  obtain ⟨lt, lr, lp, ct⟩ := peer
  rcases hm with rfl | rfl
  · constructor
    · rfl
    · rcases lt with e | o
      · simp [callToolHandler, ExpertToolSchema_parse, lookupField,
          handleExpertQuery, effectiveModeOf, isPlannerEvent]
      · rcases lr with e2 | o2 <;> rcases lp with e3 | o3 <;>
          simp [callToolHandler, ExpertToolSchema_parse, lookupField,
            handleExpertQuery, effectiveModeOf, isPlannerEvent]
  · constructor
    · rfl
    · rcases lt with e | o
      · simp [callToolHandler, ExpertToolSchema_parse, lookupField,
          handleExpertQuery, effectiveModeOf, isPlannerEvent]
      · rcases o with _ | ts
        · simp [callToolHandler, ExpertToolSchema_parse, lookupField,
            handleExpertQuery, effectiveModeOf, isPlannerEvent]
        · simp [callToolHandler, ExpertToolSchema_parse, lookupField,
            handleExpertQuery, effectiveModeOf, isPlannerEvent]
          split <;> simp

/-- Witness for C10: two discover-mode invocations with different
queries coincide and perform no planner call. -/
theorem discover_explain_query_independent_witness :
    callToolHandler sampleConfig (createExpertTool sampleConfig).name
        (some (Json.obj [("query", .str "first query"), ("mode", .str "discover")]))
        samplePeer (fun _ => .ok "plan") (fun _ => .ok samplePlan) =
      callToolHandler sampleConfig (createExpertTool sampleConfig).name
        (some (Json.obj [("query", .str "second query"), ("mode", .str "discover")]))
        samplePeer (fun _ => .ok "plan") (fun _ => .ok samplePlan) ∧
    ((callToolHandler sampleConfig (createExpertTool sampleConfig).name
        (some (Json.obj [("query", .str "first query"), ("mode", .str "discover")]))
        samplePeer (fun _ => .ok "plan") (fun _ => .ok samplePlan)).2.any
       isPlannerEvent) = false :=
  discover_explain_query_independent sampleConfig "first query" "second query"
    "discover" samplePeer (fun _ => .ok "plan") (fun _ => .ok samplePlan) (Or.inl rfl)

theorem lookupField_optField_ne (k key : String) (v : Option Json)
    (rest : List (String × Json)) (h : k ≠ key) :
    lookupField (optField k v ++ rest) key = lookupField rest key := by
  cases v <;> simp [optField, lookupField, h]

theorem lookupField_optField_eq (k : String) (v : Option Json)
    (rest : List (String × Json)) :
    lookupField (optField k v ++ rest) k =
      (match v with | some x => some x | none => lookupField rest k) := by
  cases v <;> simp [optField, lookupField]

theorem loadConfig_serverConfigJson (c : ServerConfigModel) (cfg : WrapperConfig)
    (nm : String) (hname : c.name = some (.str nm))
    (h : loadConfig (.ok (serverConfigJson c)) = .ok cfg) :
    cfg.capabilities = c.capabilities ∧
    cfg.metadata.toolCount = (c.capabilities.tools.length : Int) ∧
    cfg.metadata.resourceCount = (c.capabilities.resources.length : Int) ∧
    cfg.metadata.promptCount = (c.capabilities.prompts.length : Int) := by
  obtain ⟨cnm, ds, sp2, ag, sy, caps, ia⟩ := c
  simp only at hname
  subst hname
  rcases ds with _ | dj
  · rcases sy with _ | sj
    · simp [loadConfig, serverConfigJson, WrapperConfigSchema_parse, optField,
      lookupField, parseZodString, parseZodStringArray, parseZodAnyArray,
      parseZodNumber, parseZodCapabilities, parseZodMetadata, capsJson,
      parseZodStringElems_map, Except.bind, bind] at h
    · cases sj <;> simp [loadConfig, serverConfigJson, WrapperConfigSchema_parse, optField,
      lookupField, parseZodString, parseZodStringArray, parseZodAnyArray,
      parseZodNumber, parseZodCapabilities, parseZodMetadata, capsJson,
      parseZodStringElems_map, Except.bind, bind] at h
  · rcases sy with _ | sj
    · cases dj <;> simp [loadConfig, serverConfigJson, WrapperConfigSchema_parse, optField,
      lookupField, parseZodString, parseZodStringArray, parseZodAnyArray,
      parseZodNumber, parseZodCapabilities, parseZodMetadata, capsJson,
      parseZodStringElems_map, Except.bind, bind] at h
    · cases dj <;> cases sj <;>
        simp_all [loadConfig, serverConfigJson, WrapperConfigSchema_parse, optField,
          lookupField, parseZodString, parseZodStringArray, parseZodAnyArray,
          parseZodNumber, parseZodCapabilities, parseZodMetadata, capsJson,
          parseZodStringElems_map, Except.bind, bind]
      subst h
      exact ⟨rfl, rfl, rfl, rfl⟩

/-- C7. Round-trip: every Expert Descriptor written by a
`analyzeServer` discovery run and then successfully loaded by
`loadConfig` stores provenance counts (`toolCount`, `resourceCount`,
`promptCount`) exactly equal to the lengths of the corresponding
capabilities sequences. -/
theorem descriptor_roundtrip_counts
    (apiKeyPresent : Bool) (connectResult : Except String Unit)
    (toolsResp resourcesResp promptsResp : Except String (Option (List Json)))
    (planner : String → Except String String) (jsonParse : String → Except String Json)
    (serverPath : String) (args : List String) (nowIso : String) (nowMs : Nat)
    (w : Json) (cfg : WrapperConfig)
    (hw : (analyzeServer apiKeyPresent connectResult toolsResp resourcesResp promptsResp
        planner jsonParse serverPath args nowIso nowMs).written = some w)
    (hload : loadConfig (.ok w) = .ok cfg) :
    cfg.metadata.toolCount = (cfg.capabilities.tools.length : Int) ∧
    cfg.metadata.resourceCount = (cfg.capabilities.resources.length : Int) ∧
    cfg.metadata.promptCount = (cfg.capabilities.prompts.length : Int) := by
  cases apiKeyPresent with
  | false => simp [analyzeServer] at hw
  | true =>
    simp only [analyzeServer, if_pos] at hw
    unfold analyzerTryBody at hw
    cases connectResult with
    | error e => simp at hw
    | ok u =>
      dsimp only at hw
      rcases hd : discoverCapabilities toolsResp resourcesResp promptsResp with ⟨dres, devs⟩
      rw [hd] at hw
      cases dres with
      | error e => simp at hw
      | ok caps =>
        dsimp only at hw
        rcases ha : analyzeWithLLM caps planner jsonParse with ⟨ares, aevs⟩
        rw [ha] at hw
        cases ares with
        | error e => simp at hw
        | ok analysis =>
          dsimp only at hw
          cases hb : buildServerConfig analysis serverPath args caps nowIso with
          | error e => rw [hb] at hw; simp at hw
          | ok cm =>
            rw [hb] at hw
            dsimp only at hw
            cases hs : saveConfiguration cm nowMs with
            | error e => rw [hs] at hw; simp at hw
            | ok pw =>
              obtain ⟨path, w2⟩ := pw
              rw [hs] at hw
              dsimp only at hw
              have hw2 : w2 = w := by simpa using hw
              cases hn : cm.name with
              | none => rw [saveConfiguration, hn] at hs; exact absurd hs (by simp)
              | some nj =>
                cases nj with
                | str nmStr =>
                  rw [saveConfiguration, hn] at hs
                  have hwj : serverConfigJson cm = w := by
                    have h2 := hs
                    simp at h2
                    rw [← hw2, ← h2.2]
                  obtain ⟨hcaps, h1, h2, h3⟩ :=
                    loadConfig_serverConfigJson cm cfg nmStr hn (by rw [hwj]; exact hload)
                  rw [hcaps]
                  exact ⟨h1, h2, h3⟩
                | null => rw [saveConfiguration, hn] at hs; exact absurd hs (by simp)
                | bool b => rw [saveConfiguration, hn] at hs; exact absurd hs (by simp)
                | num n => rw [saveConfiguration, hn] at hs; exact absurd hs (by simp)
                | arr xs => rw [saveConfiguration, hn] at hs; exact absurd hs (by simp)
                | obj fs => rw [saveConfiguration, hn] at hs; exact absurd hs (by simp)
/-- Witness for C7: a concrete discovery run writes a descriptor that
loads back with `toolCount = 1 = |tools|`, `resourceCount = 0 =
|resources|`, `promptCount = 0 = |prompts|`. -/
theorem descriptor_roundtrip_counts_witness :
    roundtripConfig.metadata.toolCount = (roundtripConfig.capabilities.tools.length : Int) ∧
    roundtripConfig.metadata.resourceCount = (roundtripConfig.capabilities.resources.length : Int) ∧
    roundtripConfig.metadata.promptCount = (roundtripConfig.capabilities.prompts.length : Int) :=
  descriptor_roundtrip_counts true (.ok ()) (.ok (some [sampleTool])) (.ok none)
    (.error "no prompts") (fun _ => .ok "analysis") (fun _ => .ok sampleAnalysis)
    "./server.js" [] "2025-01-01T00:00:00.000Z" 17 roundtripWritten roundtripConfig
    rfl rfl

theorem jsToLower_ws (c : Char) : jsWhitespace (jsToLower c) = jsWhitespace c := by
  unfold jsToLower
  split
  all_goals rfl

theorem jsToLower_fix_of_ws (c : Char) (h : jsWhitespace c = true) : jsToLower c = c := by
  unfold jsToLower
  split
  all_goals first | rfl | (exact absurd h (by decide))

theorem collapseWsAux_word (w : List Char) (hw : w.all (fun c => !jsWhitespace c) = true) :
    ∀ b tail, collapseWsAux b (w ++ tail) =
      w ++ collapseWsAux (if w.isEmpty then b else false) tail := by
  induction w with
  | nil => intro b tail; simp
  | cons c w' ih =>
    intro b tail
    rw [List.all_cons, Bool.and_eq_true] at hw
    obtain ⟨hc, hw'⟩ := hw
    rw [Bool.not_eq_true'] at hc
    simp [collapseWsAux, hc, ih hw' false tail]

theorem collapseWsAux_ws_run (s : List Char) (hs : s.all jsWhitespace = true) :
    ∀ tail, collapseWsAux true (s ++ tail) = collapseWsAux true tail := by
  induction s with
  | nil => intro tail; simp
  | cons c s' ih =>
    intro tail
    rw [List.all_cons, Bool.and_eq_true] at hs
    obtain ⟨hc, hs'⟩ := hs
    simp [collapseWsAux, hc, ih hs' tail]

theorem collapseWsAux_sep (s : List Char) (hs : isSepChars s = true) :
    ∀ tail, collapseWsAux false (s ++ tail) = '-' :: collapseWsAux true tail := by
  cases s with
  | nil => simp [isSepChars] at hs
  | cons c s' =>
    intro tail
    rw [isSepChars, Bool.and_eq_true, List.all_cons, Bool.and_eq_true] at hs
    obtain ⟨-, hc, hs'⟩ := hs
    simp [collapseWsAux, hc, collapseWsAux_ws_run s' hs' tail]

theorem collapse_interleave (rest : List (List Char × List Char)) :
    ∀ w b, isWordChars w = true →
      (rest.all fun p => isSepChars p.1 && isWordChars p.2) = true →
      collapseWsAux b (interleaveWords w rest) =
        interleaveWords w (rest.map fun p => (['-'], p.2)) := by
  induction rest with
  | nil =>
    intro w b hw _
    rw [isWordChars, Bool.and_eq_true] at hw
    have h1 := collapseWsAux_word w hw.2 b []
    rw [show collapseWsAux (if w.isEmpty then b else false) [] = ([] : List Char) from rfl] at h1
    simp only [List.append_nil] at h1
    simpa [interleaveWords] using h1
  | cons p rest' ih =>
    intro w b hw hrest
    obtain ⟨s, w'⟩ := p
    rw [List.all_cons, Bool.and_eq_true] at hrest
    obtain ⟨hp, hrest'⟩ := hrest
    rw [Bool.and_eq_true] at hp
    obtain ⟨hsep, hword'⟩ := hp
    rw [isWordChars, Bool.and_eq_true] at hw
    calc collapseWsAux b (interleaveWords w ((s, w') :: rest'))
        = collapseWsAux b (w ++ (s ++ interleaveWords w' rest')) := by
          simp [interleaveWords]
      _ = w ++ collapseWsAux (if w.isEmpty then b else false)
            (s ++ interleaveWords w' rest') := by
          rw [collapseWsAux_word w hw.2]
      _ = w ++ collapseWsAux false (s ++ interleaveWords w' rest') := by
          rw [Bool.not_eq_true'] at *
          simp [hw.1]
      _ = w ++ ('-' :: collapseWsAux true (interleaveWords w' rest')) := by
          rw [collapseWsAux_sep s hsep]
      _ = w ++ ('-' :: interleaveWords w' (rest'.map fun p => (['-'], p.2))) := by
          rw [ih w' true hword' hrest']
      _ = interleaveWords w ((['-'], w') :: rest'.map fun p => (['-'], p.2)) := by
          simp [interleaveWords]

theorem map_interleave (f : Char → Char) (rest : List (List Char × List Char)) :
    ∀ w, (interleaveWords w rest).map f =
      interleaveWords (w.map f) (rest.map fun p => (p.1.map f, p.2.map f)) := by
  induction rest with
  | nil => intro w; rfl
  | cons p rest' ih =>
    intro w
    obtain ⟨s, w'⟩ := p
    simp [interleaveWords, ih w']

theorem map_toLower_of_ws (s : List Char) (hs : s.all jsWhitespace = true) :
    s.map jsToLower = s := by
  induction s with
  | nil => rfl
  | cons c s' ih =>
    rw [List.all_cons, Bool.and_eq_true] at hs
    simp [jsToLower_fix_of_ws c hs.1, ih hs.2]

theorem isWordChars_map_toLower (w : List Char) :
    isWordChars (w.map jsToLower) = isWordChars w := by
  cases w with
  | nil => rfl
  | cons c l => simp [isWordChars, List.all_map, Function.comp_def, jsToLower_ws]

/-- C8. The exposed entry-point name is derived deterministically from
the descriptor's name by lower-casing it and collapsing each run of
inter-word whitespace into a single hyphen: for every name made of
whitespace-free words joined by whitespace runs, the derived name is
the lower-cased words joined by single hyphens, and any two
configurations with the same name yield the same entry-point name. -/
theorem entry_point_name_derivation
    (config : WrapperConfig) (w : List Char) (rest : List (List Char × List Char))
    (hname : config.name = String.mk (interleaveWords w rest))
    (hw : isWordChars w = true)
    (hrest : (rest.all fun p => isSepChars p.1 && isWordChars p.2) = true) :
    (createExpertTool config).name =
      String.mk (interleaveWords (w.map jsToLower)
        (rest.map fun p => (['-'], p.2.map jsToLower))) ∧
    ∀ config2 : WrapperConfig, config2.name = config.name →
      (createExpertTool config2).name = (createExpertTool config).name := by
  constructor
  · show expertToolName config.name = _
    rw [expertToolName, hname]
    have hdata : (String.mk (interleaveWords w rest)).data = interleaveWords w rest := rfl
    rw [hdata, map_interleave jsToLower rest w]
    have hseps : (rest.map fun p => (p.1.map jsToLower, p.2.map jsToLower)) =
        rest.map fun p => (p.1, p.2.map jsToLower) := by
      apply List.map_congr_left
      intro p hp
      have hall := List.all_eq_true.mp hrest p hp
      rw [Bool.and_eq_true] at hall
      rw [isSepChars, Bool.and_eq_true] at hall
      rw [map_toLower_of_ws p.1 hall.1.2]
    rw [hseps]
    have hrest2 : ((rest.map fun p => (p.1, p.2.map jsToLower)).all
        fun p => isSepChars p.1 && isWordChars p.2) = true := by
      rw [List.all_map]
      rw [List.all_eq_true] at hrest ⊢
      intro p hp
      have hthis := hrest p hp
      rw [Bool.and_eq_true] at hthis
      simp only [Function.comp_def, Bool.and_eq_true]
      exact ⟨hthis.1, by rw [isWordChars_map_toLower]; exact hthis.2⟩
    have hw2 : isWordChars (w.map jsToLower) = true := by
      rw [isWordChars_map_toLower]; exact hw
    rw [collapse_interleave (rest.map fun p => (p.1, p.2.map jsToLower))
      (w.map jsToLower) false hw2 hrest2]
    rw [List.map_map]
    rfl
  · intro config2 h
    show expertToolName config2.name = expertToolName config.name
    rw [h]

/-- Witness for C8: the name `"My  Expert"` (two-space run) derives the
entry-point name `"my-expert"`. -/
theorem entry_point_name_derivation_witness :
    (createExpertTool spacedNameConfig).name = "my-expert" :=
  ((entry_point_name_derivation spacedNameConfig ['M', 'y']
      [([' ', ' '], ['E', 'x', 'p', 'e', 'r', 't'])]
      (by decide) (by decide) (by decide)).1).trans (by decide)
